import Mathlib

/-!
Verification of the `noaa` Meerschaum plugin (bmeares/noaa).

The development shallowly embeds the plugin's data transformations:

* `__init__.py`: `sync` (common-column reconciliation, float casting,
  aggregate success reporting), `do_fetch`, `fetch_station_data`
  (fetch window, JSON flattening, modal-length normalization);
* `_stations.py`: `get_station_info` (memoization cache), `get_stations`
  (registry-shape normalization);
* `_register.py`: `register` (registry-shape normalization).

JSON values are modelled by the inductive `JVal`; Python dicts are
modelled by association lists in insertion order (Python 3.7+ dicts are
ordered), with `upsert`/`growAt` reproducing Python's assignment and
grow-a-list-valued-entry idioms.  `datetime` values are modelled as
integer POSIX seconds, and `timedelta(hours=24)` as `86400`.  `sorted` /
`list.sort()` on strings is modelled by insertion sort with the
lexicographic (codepoint) order on `String`, which agrees with Python's
string comparison.  `list(set(xs))` is modelled by `List.dedup` (only
ever used in positions whose final value is order-insensitive because it
is sorted or consumed as a set).
-/

namespace NOAA

/-- A parsed JSON value (`json.loads` output): null, booleans, numbers,
strings, arrays and objects.  Numbers are modelled as integers; no claim
depends on non-integral numerics. -/
inductive JVal where
  | jnull
  | jbool (b : Bool)
  | jnum (n : Int)
  | jstr (s : String)
  | jarr (xs : List JVal)
  | jobj (fields : List (String × JVal))

/-- Python truthiness of a JSON value: `None`, `False`, `0`, `''`, `[]`
and `{}` are falsy, everything else is truthy. -/
def truthy : JVal → Bool
  | .jnull => false
  | .jbool b => b
  | .jnum n => n != 0
  | .jstr s => s != ""
  | .jarr xs => !xs.isEmpty
  | .jobj fields => !fields.isEmpty

/-- A station's flattened table: Python dict from column name to the list
of that column's values, in insertion order. -/
abbrev Dict := List (String × List JVal)

/-- Python's `d[k] = upd(d.get(k, dflt))` on an ordered dict: update the
entry in place if the key is present, else append a fresh entry. -/
def growAt {κ α : Type} [BEq κ] (upd : α → α) (dflt : α) :
    List (κ × α) → κ → List (κ × α)
  | [], k => [(k, upd dflt)]
  | (k', a) :: rest, k =>
    if k' == k then (k', upd a) :: rest else (k', a) :: growAt upd dflt rest k

/-- `if col not in d: d[col] = []` followed by `d[col].append(v)`. -/
def appendAt (d : Dict) (k : String) (v : JVal) : Dict :=
  growAt (fun vs => vs ++ [v]) [] d k

/-- The keys of an association list, in order. -/
def keysOf {κ α : Type} (l : List (κ × α)) : List κ := l.map Prod.fst

/-! ### Sorting (Python's `sorted` / `list.sort()` on strings) -/

/-- Insert a string into a (sorted) list at its place in the
lexicographic order. -/
def insertStr (s : String) : List String → List String
  | [] => [s]
  | t :: rest => if s ≤ t then s :: t :: rest else t :: insertStr s rest

/-- Insertion sort on strings in lexicographic (codepoint) order; models
Python's `sorted` / `list.sort()` on a list of strings. -/
def sortStrs : List String → List String
  | [] => []
  | s :: rest => insertStr s (sortStrs rest)

/-! ### Flattening (`fetch_station_data` in `__init__.py`)

One observation record's `properties` dict is walked and appended into
the per-station column dictionary.  An exception anywhere (modelled as
`Except.error ()`) aborts the whole station: `do_fetch` catches it and
turns the station's result into `None`. -/

/-- Python's `s.split('/')[-1]`. -/
def splitLast (s : String) : String := (s.splitOn "/").getLastD ""

/-- The station metadata consumed by `fetch_station_data`: `info['name']`
and, when present, `info['geometry']`.  The `json.dumps` serialization of
the geometry is abstracted as an already-serialized string. -/
structure StationInfo where
  name : String
  geometry : Option String

/-- The geometry column value appended for each record:
`json.dumps(info['geometry'])` when the station has a geometry, else
Python `None`. -/
def geoColVal (info : StationInfo) : JVal :=
  match info.geometry with
  | some g => .jstr g
  | none => .jnull

/-- Process one `(col, v)` item of a record's `properties` dict, following
`__init__.py` lines 425-455.  `Except.error ()` models an uncaught Python
exception; `.ok none` models `continue` (the item contributes no cell);
`.ok (some (col, val))` is the column name (with unit suffix when
available) and cell value appended to the station dictionary. -/
def processProp (col : String) (v : JVal) : Except Unit (Option (String × JVal)) :=
  if truthy v = false then .ok none
  else
    let val? : Except Unit (Option JVal) :=
      if col = "timestamp" then .ok (some v)
      else if col = "station" then
        match v with
        | .jstr s => .ok (some (.jstr (splitLast s)))
        | _ => .error ()
      else
        match v with
        | .jobj fields =>
          match fields.lookup "value" with
          | some val => .ok (some val)
          | none => .ok none
        | _ => .ok none
    match val? with
    | .error e => .error e
    | .ok none => .ok none
    | .ok (some val) =>
      match v with
      | .jobj fields =>
        match fields.lookup "unitCode" with
        | some (.jstr u) => .ok (some (col ++ " (" ++ u.replace "unit:" "" ++ ")", val))
        | some _ => .error ()
        | none => .ok (some (col, val))
      | _ => .ok (some (col, val))

/-- `record['properties']` with `.items()` iteration: errors unless the
record is an object whose `properties` entry is an object. -/
def recordProps (record : JVal) : Except Unit (List (String × JVal)) :=
  match record with
  | .jobj fields =>
    match fields.lookup "properties" with
    | some (.jobj props) => .ok props
    | _ => .error ()
  | _ => .error ()

/-- Flatten one observation record into the growing station dictionary
(`__init__.py` lines 411-455): append the `location` and `geometry`
cells, then walk the record's properties. -/
def flattenRecord (info : StationInfo) (d : Dict) (record : JVal) :
    Except Unit Dict :=
  let d1 := appendAt d "location" (.jstr info.name)
  let d2 := appendAt d1 "geometry" (geoColVal info)
  match recordProps record with
  | .error e => .error e
  | .ok props =>
    props.foldlM (fun acc cv =>
      match processProp cv.1 cv.2 with
      | .error e => .error e
      | .ok none => .ok acc
      | .ok (some (c, val)) => .ok (appendAt acc c val)) d2

/-- Flatten the whole `data['features']` list into the station
dictionary, starting from the empty dict. -/
def flattenFeatures (info : StationInfo) (feats : List JVal) :
    Except Unit Dict :=
  feats.foldlM (flattenRecord info) []

/-! ### Modal-length normalization (`__init__.py` lines 457-471, identical
in `_stations.py` lines 264-278) -/

/-- `klens`: each column name with its list length. -/
def klensOf (d : Dict) : List (String × Nat) := d.map (fun kv => (kv.1, kv.2.length))

/-- The multiset of column-list lengths of the station dictionary. -/
def lengthsOf (d : Dict) : List Nat := d.map (fun kv => kv.2.length)

/-- `lens`: the Python dict counting how many columns have each length,
built by `lens[l] += 1` over the `klens` values. -/
def lensCounts (d : Dict) : List (Nat × Nat) :=
  (lengthsOf d).foldl (growAt (· + 1) 0) []

/-- `max_l`: the first length (in dict insertion order) whose count is
strictly greater than every count seen before it — the modal column
length chosen by the `max_c`-tracking loop. -/
def modalLen (d : Dict) : Nat :=
  ((lensCounts d).foldl
    (fun p lc => if lc.2 > p.2 then lc else p) (0, 0)).1

/-- `norm_keys`: the columns whose length equals the modal length. -/
def norm_keys (d : Dict) : List String :=
  ((klensOf d).filter (fun kl => kl.2 = modalLen d)).map (fun kl => kl.1)

/-- `norm_d = {k: d[k] for k in norm_keys}`: the normalized station
dictionary handed to `pd.DataFrame`. -/
def norm_dict (d : Dict) : Dict :=
  (norm_keys d).map (fun k => (k, (d.lookup k).getD []))

/-! ### Claim C4 — the fetch window (`__init__.py` lines 367-399) -/

/-- The `start` bound computed by `fetch_station_data`: `(begin or
pipe.get_sync_time(params=...)) - timedelta(hours=24)`, with datetimes as
POSIX seconds and 24 hours as `86400`.  When both `begin` and the stored
sync time are `None`, the subtraction raises `TypeError` and the
`except` branch leaves `start = None` (fetch everything).  The
UTC-`isoformat` string rendering of `start` is abstracted away. -/
def fetchStart (begin syncTime : Option Int) : Option Int :=
  match begin.orElse (fun _ => syncTime) with
  | none => none
  | some t => some (t - 86400)

/-- The single observations request issued per station by
`fetch_station_data`: `requests.get(url, params={"start": start})`.
`start` is the only time parameter sent — the code passes no `end`. -/
structure ObsRequest where
  url : String
  start : Option Int

/-- The request for one station, given the supplied `begin` and the
pipe's stored per-station sync time. -/
def obsRequest (stationID : String) (begin syncTime : Option Int) : ObsRequest :=
  { url := "https://api.weather.gov/stations/" ++ stationID ++ "/observations/"
    start := fetchStart begin syncTime }

/-! ### Claim C7 — station-metadata memoization (`_stations.py` lines 13-49) -/

/-- Python's `str.rstrip()`. -/
def rstrip (s : String) : String := s.dropRightWhile Char.isWhitespace

/-- `geo = info['geometry']` under `try/except` followed by the caller's
`if geo is not None` test; a JSON `null` parses to Python `None`, and a
missing key or non-object body raises (caught, giving `None`). -/
def geoOf (j : JVal) : Option JVal :=
  match j with
  | .jobj fields =>
    match fields.lookup "geometry" with
    | some .jnull => none
    | some g => some g
    | none => none
  | _ => none

/-- `name = info['properties']['name'].rstrip()` under `try/except`:
`none` models the warn-and-return branch. -/
def nameOf (j : JVal) : Option String :=
  match j with
  | .jobj fields =>
    match fields.lookup "properties" with
    | some (.jobj props) =>
      match props.lookup "name" with
      | some (.jstr n) => some (rstrip n)
      | _ => none
    | _ => none
  | _ => none

/-- The in-memory station-metadata cache `_stations_info_cache`. -/
abbrev InfoCache := List (String × List (String × JVal))

/-- Python dict assignment `c[k] = v`: replace the entry in place, or
append a new one. -/
def upsert {α : Type} (c : List (String × α)) (k : String) (v : α) :
    List (String × α) :=
  growAt (fun _ => v) v c k

/-- `get_station_info` (`_stations.py`): the HTTP layer is abstracted as
an oracle `fetch` giving the parsed JSON body of the response for a
station ID (`none` models a falsy `response`).  Returns the station info
dict, the updated cache, and whether an HTTP request was issued. -/
def get_station_info (fetch : String → Option JVal) (cache : InfoCache)
    (stationID : String) :
    (List (String × JVal)) × InfoCache × Bool :=
  match (cache.lookup stationID).getD [] with
  | e :: es => (e :: es, cache, false)
  | [] =>
    match fetch stationID with
    | none => ([], cache, true)
    | some j =>
      match nameOf j with
      | none => ([], cache, true)
      | some n =>
        let si : List (String × JVal) :=
          ("name", JVal.jstr n) ::
            (match geoOf j with
             | some g => [("geometry", g)]
             | none => [])
        (si, upsert cache stationID si, true)

/-! ### Claim C9 — registry-shape normalization (`_register.py` lines
14-27, `_stations.py` lines 124-145, `__init__.py` lines 146-171) -/

/-- The key sequence of the dict comprehension `{stationID: {} for
stationID in stations_list}`: first occurrence wins the position. -/
def pyDictKeys : List String → List String
  | [] => []
  | s :: rest => s :: (pyDictKeys rest).filter (fun t => decide (t ≠ s))

/-- The `noaa:stations` pipe parameter: either a list of station IDs or a
dict mapping station IDs to info dicts. -/
inductive StationsParam where
  | plist (ids : List String)
  | pdict (d : List (String × List (String × JVal)))

/-- `if isinstance(stations_dict, list): stations_dict = {stationID: {}
for stationID in stations_dict}` — the shape coercion shared by
`register` and `get_stations`. -/
def coerce_stations : StationsParam → List (String × List (String × JVal))
  | .plist ids => (pyDictKeys ids).map (fun s => (s, []))
  | .pdict d => d

/-- The fill loop of `register`/`get_stations`: any station whose info
dict lacks a `name` key is replaced by the `get_station_info` result
(abstracted as `get_info`). -/
def fill_stations (get_info : String → List (String × JVal))
    (d : List (String × List (String × JVal))) :
    List (String × List (String × JVal)) :=
  d.map (fun kv =>
    if (kv.2.lookup "name").isSome then kv else (kv.1, get_info kv.1))

/-- The station-registry resolution step shared by `register` and
`get_stations`: coerce the registry shape, then fill missing names. -/
def resolve_stations (get_info : String → List (String × JVal))
    (p : StationsParam) : List (String × List (String × JVal)) :=
  fill_stations get_info (coerce_stations p)

/-! ### The `sync` pipeline after the fetch fan-out (`__init__.py` lines
243-330) -/

/-- `df.columns` of a station's table. -/
def frameCols (df : Dict) : List String := keysOf df

/-- One iteration of the common-column loop (`__init__.py` lines
252-265): `None` results and zero-column results are skipped; the first
kept result seeds `common_cols` (`list(set(df.columns))`, modelled as
`dedup` — the final value is sorted, so the set's iteration order is
immaterial); every later kept result is intersected into it
(`list(set(common_cols) & set(df.columns))`, modelled as a filter). -/
def commonColsStep (acc : Option (List String)) (df? : Option Dict) :
    Option (List String) :=
  match df? with
  | none => acc
  | some df =>
    if (frameCols df).length = 0 then acc
    else
      match acc with
      | none => some (frameCols df).dedup
      | some common => some (common.filter (fun c => decide (c ∈ frameCols df)))

/-- `common_cols` as used by the cast loop: fold the reconciliation loop
over the per-station results, fall back to `[]` when every result was
skipped, then sort (`common_cols.sort()`). -/
def commonCols (dfs : List (Option Dict)) : List String :=
  sortStrs ((dfs.foldl commonColsStep none).getD [])

/-- `non_float_cols = sorted(list({'label', 'timestamp', 'station',
'location', 'geometry'}))`, evaluated to its deterministic value (see
`non_float_cols_eval`). -/
def non_float_cols : List String :=
  ["geometry", "label", "location", "station", "timestamp"]

/-- `float_cols = sorted(list(set(common_cols) - set(non_float_cols)))`. -/
def float_cols (common : List String) : List String :=
  sortStrs (common.dedup.filter (fun c => decide (c ∉ non_float_cols)))

/-- One column of the table handed to `pipe.sync`: its name, whether
`astype('float')` was applied to it (the numeric conversion itself is
abstracted as this marker), and its cells. -/
structure CastCol where
  col : String
  toFloat : Bool
  vals : List JVal

/-- `df[common_cols]`: select exactly the common columns, in their sorted
order; a missing column raises a `KeyError`, modelled as `.error ()` and
caught by the surrounding `try` in `sync`. -/
def selectCols (df : Dict) (cols : List String) : Except Unit Dict :=
  if cols.all (fun c => (df.lookup c).isSome)
  then .ok (cols.map (fun c => (c, (df.lookup c).getD [])))
  else .error ()

/-- `df = df[common_cols]; df[float_cols] = df[float_cols].astype('float')`
(`__init__.py` lines 278-295). -/
def castFrame (df : Dict) (common : List String) : Except Unit (List CastCol) :=
  match selectCols df common with
  | .error e => .error e
  | .ok sel => .ok (sel.map (fun kv =>
      ⟨kv.1, decide (kv.1 ∈ float_cols common), kv.2⟩))

/-- The `_dataframes` rebuild loop: stations whose fetch result is `None`
are dropped from the dict; for the rest, a select-and-cast failure is
caught and recorded as `None`. -/
def castLoop (results : List (String × Option Dict)) (common : List String) :
    List (String × Option (List CastCol)) :=
  results.foldl (fun acc r =>
    match r.2 with
    | none => acc
    | some df => acc ++ [(r.1, (castFrame df common).toOption)]) []

/-- The per-station `pipe.sync` loop (`__init__.py` lines 310-317): a
`None` frame yields `False`, otherwise the host pipe's reported success
boolean, abstracted as the oracle `hostOk`. -/
def successDict (cast : List (String × Option (List CastCol)))
    (hostOk : String → List CastCol → Bool) : List (String × Bool) :=
  cast.map (fun r =>
    (r.1, match r.2 with
          | none => false
          | some out => hostOk r.1 out))

/-- The `succeeded`/`failed` counting loop (`__init__.py` lines 319-328). -/
def countSyncs (sd : List (String × Bool)) : Nat × Nat :=
  sd.foldl (fun p r => if r.2 then (p.1 + 1, p.2) else (p.1, p.2 + 1)) (0, 0)

/-- The value returned by `sync` after the fetch fan-out: the aggregate
success boolean `succeeded > 0` and the summary message.  `results` is
the `dataframes` dict produced by the `do_fetch` fan-out, in station
order. -/
def sync_result (results : List (String × Option Dict))
    (hostOk : String → List CastCol → Bool) : Bool × String :=
  let common := commonCols (results.map (fun r => r.2))
  let sd := successDict (castLoop results common) hostOk
  let sf := countSyncs sd
  (decide (sf.1 > 0),
   "Synced from " ++ toString (sf.1 + sf.2) ++ " stations, "
     ++ toString sf.2 ++ " failed.")

/-- `do_fetch`: any exception from `fetch_station_data` is caught and the
station's entry becomes `None`. -/
def do_fetch (stationID : String) (fetched : Except Unit Dict) :
    String × Option Dict :=
  (stationID, fetched.toOption)

/-- Whether `sync` counts a station as synced: its fetch produced a
frame, the select-and-cast step succeeded, and the host pipe reported
success. -/
def stationSynced (common : List String)
    (hostOk : String → List CastCol → Bool) (r : String × Option Dict) : Bool :=
  match r.2 with
  | none => false
  | some df =>
    match (castFrame df common).toOption with
    | none => false
    | some out => hostOk r.1 out

/-! ### Theorems -/

section GrowAtLemmas

variable {κ α : Type} [BEq κ] [LawfulBEq κ]

theorem lookup_cons_of_eq (k : κ) (a : α) (l : List (κ × α)) :
    ((k, a) :: l).lookup k = some a := by
  simp [List.lookup]

theorem lookup_cons_of_ne {k2 k' : κ} (h : k2 ≠ k') (a : α) (l : List (κ × α)) :
    ((k', a) :: l).lookup k2 = l.lookup k2 := by
  have hb : (k2 == k') = false := beq_eq_false_iff_ne.mpr h
  simp [List.lookup, hb]

theorem lookup_growAt [DecidableEq κ] (upd : α → α) (dflt : α) (l : List (κ × α)) (k k2 : κ) :
    (growAt upd dflt l k).lookup k2 =
      if k2 = k then some (upd (((l.lookup k).getD dflt)))
      else l.lookup k2 := by
  induction l with
  | nil =>
    by_cases h : k2 = k
    · subst h; simp [growAt, lookup_cons_of_eq, List.lookup]
    · have hb : (k2 == k) = false := beq_eq_false_iff_ne.mpr h
      simp [growAt, List.lookup, hb, h]
  | cons hd tl ih =>
    obtain ⟨k', a⟩ := hd
    by_cases hk : k' = k
    · subst hk
      by_cases h2 : k2 = k'
      · subst h2
        simp [growAt, lookup_cons_of_eq]
      · simp [growAt, lookup_cons_of_ne h2, h2]
    · have hgrow : growAt upd dflt ((k', a) :: tl) k
          = (k', a) :: growAt upd dflt tl k := by
        have hb : (k' == k) = false := beq_eq_false_iff_ne.mpr hk
        simp [growAt, hb]
      by_cases h2 : k2 = k'
      · have hb2 : ¬ k2 = k := fun hh => hk (h2 ▸ hh)
        rw [hgrow, if_neg hb2, h2, lookup_cons_of_eq, lookup_cons_of_eq]
      · rw [hgrow, lookup_cons_of_ne h2, lookup_cons_of_ne h2, ih,
          lookup_cons_of_ne (fun hh => hk hh.symm)]

theorem keysOf_growAt [DecidableEq κ] (upd : α → α) (dflt : α) (l : List (κ × α)) (k : κ) :
    keysOf (growAt upd dflt l k) =
      if k ∈ keysOf l then keysOf l else keysOf l ++ [k] := by
  induction l with
  | nil => simp [growAt, keysOf]
  | cons hd tl ih =>
    obtain ⟨k', a⟩ := hd
    by_cases hk : k' = k
    · subst hk
      have hb : (k' == k') = true := beq_self_eq_true k'
      simp [growAt, hb, keysOf]
    · have hb : (k' == k) = false := beq_eq_false_iff_ne.mpr hk
      simp only [growAt, hb, Bool.false_eq_true, if_false]
      simp only [keysOf, List.map_cons] at ih ⊢
      rw [ih]
      by_cases hm : k ∈ List.map Prod.fst tl
      · simp [hm, Ne.symm hk]
      · simp [hm, Ne.symm hk]

theorem nodup_keysOf_growAt [DecidableEq κ] (upd : α → α) (dflt : α) (l : List (κ × α)) (k : κ)
    (h : (keysOf l).Nodup) : (keysOf (growAt upd dflt l k)).Nodup := by
  rw [keysOf_growAt]
  by_cases hm : k ∈ keysOf l
  · simpa [hm] using h
  · simp only [hm, if_false]
    exact List.Nodup.append h (List.nodup_singleton k) (by simpa using hm)

/-- In an association list with no duplicate keys, membership of a pair
determines the lookup. -/
theorem lookup_of_mem_of_nodup {l : List (κ × α)} {k : κ} {a : α}
    (hn : (keysOf l).Nodup) (hm : (k, a) ∈ l) : l.lookup k = some a := by
  induction l with
  | nil => simp at hm
  | cons hd tl ih =>
    obtain ⟨k', a'⟩ := hd
    simp only [keysOf, List.map_cons, List.nodup_cons] at hn
    rcases List.mem_cons.mp hm with h | h
    · cases h
      exact lookup_cons_of_eq k a tl
    · have hne : k ≠ k' := by
        intro he; subst he
        exact hn.1 (List.mem_map.mpr ⟨(k, a), h, rfl⟩)
      rw [lookup_cons_of_ne hne]
      exact ih hn.2 h

theorem mem_of_lookup_eq_some {l : List (κ × α)} {k : κ} {a : α}
    (h : l.lookup k = some a) : (k, a) ∈ l := by
  induction l with
  | nil => simp [List.lookup] at h
  | cons hd tl ih =>
    obtain ⟨k', a'⟩ := hd
    by_cases he : k = k'
    · subst he
      rw [lookup_cons_of_eq] at h
      exact List.mem_cons.mpr (Or.inl (by rw [Option.some.injEq] at h; rw [h]))
    · rw [lookup_cons_of_ne he] at h
      exact List.mem_cons.mpr (Or.inr (ih h))

end GrowAtLemmas

theorem mem_insertStr (a s : String) (l : List String) :
    a ∈ insertStr s l ↔ a = s ∨ a ∈ l := by
  induction l with
  | nil => simp [insertStr]
  | cons t rest ih =>
    by_cases h : s ≤ t
    · simp [insertStr, h]
    · simp only [insertStr, h, if_false, List.mem_cons, ih]
      tauto

theorem mem_sortStrs (a : String) (l : List String) :
    a ∈ sortStrs l ↔ a ∈ l := by
  induction l with
  | nil => simp [sortStrs]
  | cons s rest ih => simp [sortStrs, mem_insertStr, ih]

theorem sorted_insertStr (s : String) (l : List String)
    (h : l.Sorted (· ≤ ·)) : (insertStr s l).Sorted (· ≤ ·) := by
  induction l with
  | nil => simp [insertStr]
  | cons t rest ih =>
    by_cases hle : s ≤ t
    · simp only [insertStr, hle, if_true]
      refine List.sorted_cons.mpr ⟨?_, h⟩
      intro b hb
      rcases List.mem_cons.mp hb with rfl | hb
      · exact hle
      · exact le_trans hle ((List.sorted_cons.mp h).1 b hb)
    · have ht := List.sorted_cons.mp h
      simp only [insertStr, hle, if_false]
      refine List.sorted_cons.mpr ⟨?_, ih ht.2⟩
      intro b hb
      rcases (mem_insertStr b s rest).mp hb with rfl | hb
      · exact le_of_not_le hle
      · exact ht.1 b hb

theorem sorted_sortStrs (l : List String) :
    (sortStrs l).Sorted (· ≤ ·) := by
  induction l with
  | nil => simp [sortStrs]
  | cons s rest ih => exact sorted_insertStr s _ ih

/-! ### Facts about the modal-length normalization -/

theorem mem_keys_of_mem_filtered {tl : Dict} {k : String} {p : String × Nat → Bool}
    (h : k ∈ ((klensOf tl).filter p).map (fun kl => kl.1)) : k ∈ keysOf tl := by
  obtain ⟨kl, hkl, rfl⟩ := List.mem_map.mp h
  have hmem := List.mem_of_mem_filter hkl
  obtain ⟨kv, hkv, h2⟩ := List.mem_map.mp hmem
  exact List.mem_map.mpr ⟨kv, hkv, by rw [← h2]⟩

/-- With distinct column names, `{k: d[k] for k in norm_keys}` is the
subdictionary of columns whose length is `m`, values untouched. -/
theorem norm_map_eq_filter (d : Dict) (h : (keysOf d).Nodup) (m : Nat) :
    (((klensOf d).filter (fun kl => kl.2 = m)).map (fun kl => kl.1)).map
      (fun k => (k, (d.lookup k).getD [])) =
    d.filter (fun kv => kv.2.length = m) := by
  induction d with
  | nil => rfl
  | cons hd tl ih =>
    obtain ⟨k0, vs⟩ := hd
    simp only [keysOf, List.map_cons, List.nodup_cons] at h
    have htail :
        (((klensOf tl).filter (fun kl => kl.2 = m)).map (fun kl => kl.1)).map
          (fun k => (k, (((k0, vs) :: tl).lookup k).getD [])) =
        tl.filter (fun kv => kv.2.length = m) := by
      rw [List.map_congr_left (g := fun k => (k, (tl.lookup k).getD []))
        (fun k hk => by
          have hk' : k ∈ keysOf tl := mem_keys_of_mem_filtered hk
          have hne : k ≠ k0 := fun he => h.1 (he ▸ hk')
          rw [lookup_cons_of_ne hne])]
      exact ih h.2
    by_cases hm : vs.length = m
    · rw [show klensOf ((k0, vs) :: tl) = (k0, vs.length) :: klensOf tl from rfl,
        List.filter_cons_of_pos (by simpa using hm),
        List.filter_cons_of_pos (p := fun kv : String × List JVal => decide (kv.2.length = m))
          (by simpa using hm)]
      simp only [List.map_cons, lookup_cons_of_eq, Option.getD_some]
      rw [htail]
    · rw [show klensOf ((k0, vs) :: tl) = (k0, vs.length) :: klensOf tl from rfl,
        List.filter_cons_of_neg (by simpa using hm),
        List.filter_cons_of_neg (p := fun kv : String × List JVal => decide (kv.2.length = m))
          (by simpa using hm)]
      rw [htail]

theorem lookup_foldl_growAt_count (ls : List Nat) (acc : List (Nat × Nat)) (k : Nat) :
    (((ls.foldl (growAt (· + 1) 0) acc).lookup k).getD 0)
      = ((acc.lookup k).getD 0) + ls.count k := by
  induction ls generalizing acc with
  | nil => simp
  | cons l rest ih =>
    rw [List.foldl_cons, ih, lookup_growAt]
    by_cases h : k = l
    · subst h
      simp [List.count_cons]
      omega
    · have hb : (l == k) = false := beq_eq_false_iff_ne.mpr (Ne.symm h)
      simp [h, List.count_cons, hb]

theorem nodup_keys_foldl_growAt (ls : List Nat) (acc : List (Nat × Nat))
    (h : (keysOf acc).Nodup) :
    (keysOf (ls.foldl (growAt (· + 1) 0) acc)).Nodup := by
  induction ls generalizing acc with
  | nil => simpa
  | cons l rest ih =>
    rw [List.foldl_cons]
    exact ih _ (nodup_keysOf_growAt _ _ _ _ h)

theorem mem_lensCounts_eq_count (d : Dict) (k c : Nat)
    (h : (k, c) ∈ lensCounts d) : c = (lengthsOf d).count k := by
  have hnd : (keysOf (lensCounts d)).Nodup :=
    nodup_keys_foldl_growAt _ [] (by simp [keysOf])
  have hl : (lensCounts d).lookup k = some c := lookup_of_mem_of_nodup hnd h
  have := lookup_foldl_growAt_count (lengthsOf d) [] k
  rw [show (lengthsOf d).foldl (growAt (· + 1) 0) [] = lensCounts d from rfl, hl] at this
  simpa using this

theorem lookup_lensCounts (d : Dict) (k : Nat) (hk : k ∈ lengthsOf d) :
    (lensCounts d).lookup k = some ((lengthsOf d).count k) := by
  have h1 := lookup_foldl_growAt_count (lengthsOf d) [] k
  rw [show (lengthsOf d).foldl (growAt (· + 1) 0) [] = lensCounts d from rfl] at h1
  have hpos : 0 < (lengthsOf d).count k := List.count_pos_iff.mpr hk
  cases hc : (lensCounts d).lookup k with
  | none => rw [hc] at h1; simp at h1; omega
  | some c =>
    rw [hc] at h1
    simp only [Option.getD_some, List.lookup] at h1
    simp at h1
    rw [h1]

theorem foldl_max_spec (lcs : List (Nat × Nat)) (p : Nat × Nat) :
    (∀ q ∈ lcs, q.2 ≤ (lcs.foldl (fun r lc => if lc.2 > r.2 then lc else r) p).2)
    ∧ p.2 ≤ (lcs.foldl (fun r lc => if lc.2 > r.2 then lc else r) p).2
    ∧ ((lcs.foldl (fun r lc => if lc.2 > r.2 then lc else r) p) = p
        ∨ (lcs.foldl (fun r lc => if lc.2 > r.2 then lc else r) p) ∈ lcs) := by
  induction lcs generalizing p with
  | nil =>
    simp only [List.foldl_nil]
    exact ⟨by simp, le_refl _, by simp⟩
  | cons lc rest ih =>
    rw [List.foldl_cons]
    obtain ⟨ih1, ih2, ih3⟩ := ih (if lc.2 > p.2 then lc else p)
    refine ⟨?_, ?_, ?_⟩
    · intro q hq
      rcases List.mem_cons.mp hq with rfl | hq
      · exact le_trans (by by_cases h : q.2 > p.2 <;> simp [h] <;> omega) ih2
      · exact ih1 q hq
    · exact le_trans (by by_cases h : lc.2 > p.2 <;> simp [h] <;> omega) ih2
    · rcases ih3 with he | hm
      · rw [he]
        by_cases h : lc.2 > p.2
        · simp only [h, if_true]
          exact Or.inr (List.mem_cons_self _ _)
        · simp [h]
      · exact Or.inr (List.mem_cons.mpr (Or.inr hm))

/-- The modal length maximizes the count of columns per length. -/
theorem count_le_count_modal (d : Dict) (l : Nat) (hl : l ∈ lengthsOf d) :
    (lengthsOf d).count l ≤ (lengthsOf d).count (modalLen d) := by
  obtain ⟨h1, _h2, h3⟩ := foldl_max_spec (lensCounts d) (0, 0)
  have hmem : (l, (lengthsOf d).count l) ∈ lensCounts d :=
    mem_of_lookup_eq_some (lookup_lensCounts d l hl)
  have hle := h1 _ hmem
  rcases h3 with he | hm
  · rw [he] at hle
    exact le_trans hle (Nat.zero_le _)
  · set r := (lensCounts d).foldl (fun p lc => if lc.2 > p.2 then lc else p) (0, 0) with hr
    have : r.2 = (lengthsOf d).count r.1 := mem_lensCounts_eq_count d r.1 r.2 hm
    rw [this] at hle
    exact hle

/-! ### Claim C1 and C8 theorems -/

/-- C1 — Row-length normalization: for every station dictionary of column
lists (with distinct column names, as Python dicts guarantee), the
normalization step of `fetch_station_data` keeps exactly those columns
whose list length equals the modal column length `modalLen d` — the
result is the subdictionary of columns of that length, values unchanged
(dropped, never padded) — and `modalLen d` is indeed a most frequently
occurring column length: no length occurs more often. -/
theorem C1_row_length_normalization (d : Dict) (h : (keysOf d).Nodup) :
    norm_dict d = d.filter (fun kv => kv.2.length = modalLen d)
    ∧ ∀ l ∈ lengthsOf d,
        (lengthsOf d).count l ≤ (lengthsOf d).count (modalLen d) :=
  ⟨norm_map_eq_filter d h (modalLen d), fun l hl => count_le_count_modal d l hl⟩

theorem C1_row_length_normalization_witness :
    (keysOf [("timestamp", [JVal.jnull, JVal.jnull]),
             ("station", [JVal.jnull, JVal.jnull]),
             ("odd", [JVal.jnull])]).Nodup
    ∧ (norm_dict [("timestamp", [JVal.jnull, JVal.jnull]),
             ("station", [JVal.jnull, JVal.jnull]),
             ("odd", [JVal.jnull])]
        = [("timestamp", [JVal.jnull, JVal.jnull]),
             ("station", [JVal.jnull, JVal.jnull]),
             ("odd", [JVal.jnull])].filter
            (fun kv => kv.2.length = modalLen [("timestamp", [JVal.jnull, JVal.jnull]),
             ("station", [JVal.jnull, JVal.jnull]),
             ("odd", [JVal.jnull])])
       ∧ ∀ l ∈ lengthsOf [("timestamp", [JVal.jnull, JVal.jnull]),
             ("station", [JVal.jnull, JVal.jnull]),
             ("odd", [JVal.jnull])],
          (lengthsOf [("timestamp", [JVal.jnull, JVal.jnull]),
             ("station", [JVal.jnull, JVal.jnull]),
             ("odd", [JVal.jnull])]).count l
            ≤ (lengthsOf [("timestamp", [JVal.jnull, JVal.jnull]),
             ("station", [JVal.jnull, JVal.jnull]),
             ("odd", [JVal.jnull])]).count (modalLen [("timestamp", [JVal.jnull, JVal.jnull]),
             ("station", [JVal.jnull, JVal.jnull]),
             ("odd", [JVal.jnull])])) :=
  ⟨by decide, C1_row_length_normalization _ (by decide)⟩

theorem error_bind {ε α β : Type} (e : ε) (f : α → Except ε β) :
    ((Except.error e : Except ε α) >>= f) = Except.error e := rfl

theorem ok_bind {ε α β : Type} (a : α) (f : α → Except ε β) :
    ((Except.ok a : Except ε α) >>= f) = f a := rfl

/-- The per-record properties fold of `flattenRecord` preserves
distinctness of column names. -/
theorem nodup_keys_foldProps (props : List (String × JVal)) (d : Dict)
    (h : (keysOf d).Nodup) (d' : Dict)
    (hfold : props.foldlM (fun acc cv =>
      (match processProp cv.1 cv.2 with
      | .error e => Except.error e
      | .ok none => Except.ok acc
      | .ok (some (c, val)) => Except.ok (appendAt acc c val) : Except Unit Dict)) d
      = Except.ok d') :
    (keysOf d').Nodup := by
  induction props generalizing d with
  | nil =>
    simp only [List.foldlM_nil] at hfold
    cases hfold
    exact h
  | cons cv rest ih =>
    rw [List.foldlM_cons] at hfold
    cases hp : processProp cv.1 cv.2 with
    | error e =>
      rw [hp, error_bind] at hfold
      exact Except.noConfusion hfold
    | ok r =>
      rw [hp] at hfold
      match r with
      | none =>
        rw [ok_bind] at hfold
        exact ih d h hfold
      | some (c, val) =>
        rw [ok_bind] at hfold
        exact ih (appendAt d c val) (nodup_keysOf_growAt _ _ _ _ h) hfold

theorem nodup_keys_flattenRecord (info : StationInfo) (d : Dict) (record : JVal)
    (h : (keysOf d).Nodup) (d' : Dict)
    (hr : flattenRecord info d record = .ok d') : (keysOf d').Nodup := by
  unfold flattenRecord at hr
  cases hp : recordProps record with
  | error e => rw [hp] at hr; cases hr
  | ok props =>
    rw [hp] at hr
    exact nodup_keys_foldProps props _
      (nodup_keysOf_growAt _ _ _ _ (nodup_keysOf_growAt _ _ _ _ h)) d' hr

theorem nodup_keys_flattenFeatures (info : StationInfo) (feats : List JVal)
    (d0 : Dict) (h0 : (keysOf d0).Nodup) (d' : Dict)
    (h : feats.foldlM (flattenRecord info) d0 = .ok d') :
    (keysOf d').Nodup := by
  induction feats generalizing d0 with
  | nil =>
    simp only [List.foldlM_nil] at h
    cases h
    exact h0
  | cons f rest ih =>
    rw [List.foldlM_cons] at h
    cases hf : flattenRecord info d0 f with
    | error e =>
      rw [hf, error_bind] at h
      exact Except.noConfusion h
    | ok d1 =>
      rw [hf, ok_bind] at h
      exact ih d1 (nodup_keys_flattenRecord info d0 f h0 d1 hf) h

/-- C8 — Equal-length invariant: for every feature list that flattens
without an exception, every column surviving normalization has list
length exactly the modal length, and its value list is exactly the list
built during flattening (looked up unchanged in the flattened dict). -/
theorem C8_equal_length_invariant (info : StationInfo) (feats : List JVal)
    (d : Dict) (h : flattenFeatures info feats = .ok d) :
    ∀ kv ∈ norm_dict d, kv.2.length = modalLen d ∧ d.lookup kv.1 = some kv.2 := by
  have hnd : (keysOf d).Nodup :=
    nodup_keys_flattenFeatures info feats [] (by simp [keysOf]) d h
  have hfil : norm_dict d = d.filter (fun kv => kv.2.length = modalLen d) :=
    norm_map_eq_filter d hnd (modalLen d)
  intro kv hkv
  rw [hfil] at hkv
  have hp := List.of_mem_filter hkv
  have hm := List.mem_of_mem_filter hkv
  exact ⟨by simpa using hp, lookup_of_mem_of_nodup hnd hm⟩

theorem C8_equal_length_invariant_witness :
    flattenFeatures ⟨"Atlanta", none⟩
      [JVal.jobj [("properties", JVal.jobj
        [("timestamp", JVal.jstr "2023-01-01T00:00:00Z"),
         ("temperature", JVal.jobj [("value", JVal.jnum 20)])])]]
      = .ok [("location", [JVal.jstr "Atlanta"]),
             ("geometry", [JVal.jnull]),
             ("timestamp", [JVal.jstr "2023-01-01T00:00:00Z"]),
             ("temperature", [JVal.jnum 20])]
    ∧ ∀ kv ∈ norm_dict [("location", [JVal.jstr "Atlanta"]),
             ("geometry", [JVal.jnull]),
             ("timestamp", [JVal.jstr "2023-01-01T00:00:00Z"]),
             ("temperature", [JVal.jnum 20])],
        kv.2.length = modalLen [("location", [JVal.jstr "Atlanta"]),
             ("geometry", [JVal.jnull]),
             ("timestamp", [JVal.jstr "2023-01-01T00:00:00Z"]),
             ("temperature", [JVal.jnum 20])]
        ∧ ([("location", [JVal.jstr "Atlanta"]),
             ("geometry", [JVal.jnull]),
             ("timestamp", [JVal.jstr "2023-01-01T00:00:00Z"]),
             ("temperature", [JVal.jnum 20])] : Dict).lookup kv.1 = some kv.2 :=
  ⟨rfl, C8_equal_length_invariant ⟨"Atlanta", none⟩
      [JVal.jobj [("properties", JVal.jobj
        [("timestamp", JVal.jstr "2023-01-01T00:00:00Z"),
         ("temperature", JVal.jobj [("value", JVal.jnum 20)])])]]
      [("location", [JVal.jstr "Atlanta"]),
             ("geometry", [JVal.jnull]),
             ("timestamp", [JVal.jstr "2023-01-01T00:00:00Z"]),
             ("temperature", [JVal.jnum 20])] rfl⟩

/-! ### Claim C6 — flattening of one property -/

theorem isEmpty_false_of_lookup {fields : List (String × JVal)} {k : String}
    {v : JVal} (h : fields.lookup k = some v) : fields.isEmpty = false := by
  cases fields with
  | nil => simp [List.lookup] at h
  | cons hd tl => rfl

/-- C6 — Flattening: a property whose value is a `{value, unitCode}`
envelope contributes the unwrapped `value` entry, under the column name
suffixed with the parenthesized unit code with the `unit:` scheme prefix
stripped; an envelope without a `unitCode` keeps the bare column name; a
dict without a `value` entry is skipped; the `timestamp` property is kept
as-is; the `station` property is reduced to the trailing path segment of
its URL. -/
theorem C6_flattening_extraction (col s u : String)
    (fields : List (String × JVal)) (val : JVal)
    (hts : col ≠ "timestamp") (hst : col ≠ "station") :
    (fields.lookup "value" = some val →
      fields.lookup "unitCode" = some (JVal.jstr u) →
      processProp col (.jobj fields)
        = .ok (some (col ++ " (" ++ u.replace "unit:" "" ++ ")", val)))
    ∧ (fields.lookup "value" = some val →
      fields.lookup "unitCode" = none →
      processProp col (.jobj fields) = .ok (some (col, val)))
    ∧ (fields.lookup "value" = none → truthy (.jobj fields) = true →
      processProp col (.jobj fields) = .ok none)
    ∧ (s ≠ "" → processProp "timestamp" (.jstr s) = .ok (some ("timestamp", .jstr s)))
    ∧ (s ≠ "" → processProp "station" (.jstr s)
        = .ok (some ("station", .jstr (splitLast s)))) := by
  refine ⟨?_, ?_, ?_, ?_, ?_⟩
  · intro hv hu
    have htr : truthy (.jobj fields) = true := by
      simp [truthy, isEmpty_false_of_lookup hv]
    simp [processProp, htr, hts, hst, hv, hu]
  · intro hv hu
    have htr : truthy (.jobj fields) = true := by
      simp [truthy, isEmpty_false_of_lookup hv]
    simp [processProp, htr, hts, hst, hv, hu]
  · intro hv htr
    simp [processProp, htr, hts, hst, hv]
  · intro hs
    have htr : truthy (.jstr s) = true := by simp [truthy, hs]
    simp [processProp, htr]
  · intro hs
    have htr : truthy (.jstr s) = true := by simp [truthy, hs]
    simp [processProp, htr]

theorem C6_flattening_extraction_witness :
    ("temperature" : String) ≠ "timestamp"
    ∧ ("temperature" : String) ≠ "station"
    ∧ (([("value", JVal.jnum 20), ("unitCode", JVal.jstr "unit:degC")]
          : List (String × JVal)).lookup "value" = some (JVal.jnum 20) →
      ([("value", JVal.jnum 20), ("unitCode", JVal.jstr "unit:degC")]
          : List (String × JVal)).lookup "unitCode" = some (JVal.jstr "unit:degC") →
      processProp "temperature"
          (.jobj [("value", JVal.jnum 20), ("unitCode", JVal.jstr "unit:degC")])
        = .ok (some ("temperature" ++ " (" ++ "unit:degC".replace "unit:" "" ++ ")",
            JVal.jnum 20)))
    ∧ (([("value", JVal.jnum 20), ("unitCode", JVal.jstr "unit:degC")]
          : List (String × JVal)).lookup "value" = some (JVal.jnum 20) →
      ([("value", JVal.jnum 20), ("unitCode", JVal.jstr "unit:degC")]
          : List (String × JVal)).lookup "unitCode" = none →
      processProp "temperature"
          (.jobj [("value", JVal.jnum 20), ("unitCode", JVal.jstr "unit:degC")])
        = .ok (some ("temperature", JVal.jnum 20)))
    ∧ (([("value", JVal.jnum 20), ("unitCode", JVal.jstr "unit:degC")]
          : List (String × JVal)).lookup "value" = none →
      truthy (.jobj [("value", JVal.jnum 20), ("unitCode", JVal.jstr "unit:degC")]) = true →
      processProp "temperature"
          (.jobj [("value", JVal.jnum 20), ("unitCode", JVal.jstr "unit:degC")])
        = .ok none)
    ∧ (("https://api.weather.gov/stations/KATL" : String) ≠ "" →
      processProp "timestamp" (.jstr "https://api.weather.gov/stations/KATL")
        = .ok (some ("timestamp", .jstr "https://api.weather.gov/stations/KATL")))
    ∧ (("https://api.weather.gov/stations/KATL" : String) ≠ "" →
      processProp "station" (.jstr "https://api.weather.gov/stations/KATL")
        = .ok (some ("station",
            .jstr (splitLast "https://api.weather.gov/stations/KATL")))) :=
  ⟨by decide, by decide,
    (C6_flattening_extraction "temperature" "https://api.weather.gov/stations/KATL"
      "unit:degC" [("value", JVal.jnum 20), ("unitCode", JVal.jstr "unit:degC")]
      (JVal.jnum 20) (by decide) (by decide))⟩

/-- C4 counterexample — with an explicit `begin` of 200000 s and a stored
last-sync time of 100000 s, the request's `start` parameter is
`begin - 24h = 113600`, not the explicit `begin` itself as the claim
states. -/
theorem C4_fetch_window_counterexample :
    (obsRequest "KATL" (some 200000) (some 100000)).start = some 113600
    ∧ (obsRequest "KATL" (some 200000) (some 100000)).start ≠ some 200000 :=
  ⟨rfl, by decide⟩

/-- C4 (amended) — Fetch window: each station's single observations GET
carries a `start` parameter equal to (the explicit `begin` when supplied,
otherwise the station's last-synced timestamp) minus 24 hours, and `None`
when neither exists; no `end` parameter is sent, so the window extends
through the API's default (now). -/
theorem C4_fetch_window (stationID : String) (b t : Option Int) :
    (obsRequest stationID b t).url
      = "https://api.weather.gov/stations/" ++ stationID ++ "/observations/"
    ∧ (∀ x, b = some x → (obsRequest stationID b t).start = some (x - 86400))
    ∧ (b = none → ∀ y, t = some y → (obsRequest stationID b t).start = some (y - 86400))
    ∧ (b = none → t = none → (obsRequest stationID b t).start = none) := by
  refine ⟨rfl, ?_, ?_, ?_⟩
  · intro x hx
    subst hx
    rfl
  · intro hb y ht
    subst hb
    subst ht
    rfl
  · intro hb ht
    subst hb
    subst ht
    rfl

theorem C4_fetch_window_witness :
    (obsRequest "KATL" (some 200000) none).url
      = "https://api.weather.gov/stations/" ++ "KATL" ++ "/observations/"
    ∧ (obsRequest "KATL" (some 200000) (some 100000)).start = some (200000 - 86400)
    ∧ (obsRequest "KATL" none (some 100000)).start = some (100000 - 86400)
    ∧ (obsRequest "KATL" none none).start = none :=
  ⟨(C4_fetch_window "KATL" (some 200000) none).1,
   (C4_fetch_window "KATL" (some 200000) (some 100000)).2.1 200000 rfl,
   (C4_fetch_window "KATL" none (some 100000)).2.2.1 rfl 100000 rfl,
   (C4_fetch_window "KATL" none none).2.2.2 rfl rfl⟩

theorem lookup_upsert {α : Type} (c : List (String × α)) (k k2 : String) (v : α) :
    (upsert c k v).lookup k2 = if k2 = k then some v else c.lookup k2 :=
  lookup_growAt (fun _ => v) v c k k2

theorem lookup_upsert_self {α : Type} (c : List (String × α)) (k : String) (v : α) :
    (upsert c k v).lookup k = some v := by
  rw [lookup_upsert]
  simp

theorem lookup_upsert_other {α : Type} (c : List (String × α)) (k k2 : String)
    (v : α) (h : k2 ≠ k) : (upsert c k v).lookup k2 = c.lookup k2 := by
  rw [lookup_upsert]
  simp [h]

/-- `get_station_info` takes one of three observable paths: a nonempty
cache hit (no request), a failure returning `{}`, or a successful fetch
that stores its result. -/
theorem get_station_info_cases (fetch : String → Option JVal)
    (cache : InfoCache) (sid : String) :
    (∃ l, cache.lookup sid = some l ∧ l ≠ []
      ∧ get_station_info fetch cache sid = (l, cache, false))
    ∨ (get_station_info fetch cache sid).1 = []
    ∨ (∃ j n, fetch sid = some j ∧ nameOf j = some n ∧
        get_station_info fetch cache sid
          = (("name", JVal.jstr n) ::
               (match geoOf j with | some g => [("geometry", g)] | none => []),
             upsert cache sid (("name", JVal.jstr n) ::
               (match geoOf j with | some g => [("geometry", g)] | none => [])),
             true)) := by
  unfold get_station_info
  cases hc : (cache.lookup sid).getD [] with
  | cons e es =>
    left
    have hl : cache.lookup sid = some (e :: es) := by
      cases hl2 : cache.lookup sid with
      | none => rw [hl2] at hc; simp at hc
      | some l =>
        rw [hl2] at hc
        simp only [Option.getD_some] at hc
        rw [hc]
    exact ⟨e :: es, hl, by simp, rfl⟩
  | nil =>
    cases hf : fetch sid with
    | none =>
      right
      left
      rfl
    | some j =>
      cases hn : nameOf j with
      | none =>
        right
        left
        simp only [hn]
      | some n =>
        right
        right
        refine ⟨j, n, rfl, hn, ?_⟩
        simp only [hn]

/-- A nonempty cached entry is returned as-is, with no request and no
cache change. -/
theorem get_station_info_cached (fetch : String → Option JVal)
    (cache : InfoCache) (sid : String) (l : List (String × JVal))
    (hne : l ≠ []) (hl : cache.lookup sid = some l) :
    get_station_info fetch cache sid = (l, cache, false) := by
  unfold get_station_info
  rw [hl]
  cases l with
  | nil => exact absurd rfl hne
  | cons e es => rfl

/-- C7 — Station-metadata memoization: when a `get_station_info` call
succeeds (returns a nonempty info dict), (1) the updated cache holds
exactly that result for the station; (2) any later call for the same
station against a cache holding that result returns the same metadata,
leaves the cache unchanged, and issues no HTTP request, whatever the
network would now return; (3) calls for other stations never disturb this
station's cache entry. -/
theorem C7_station_info_memoization (fetch : String → Option JVal)
    (cache : InfoCache) (stationID : String)
    (hsucc : (get_station_info fetch cache stationID).1.isEmpty = false) :
    ((get_station_info fetch cache stationID).2.1.lookup stationID
        = some (get_station_info fetch cache stationID).1)
    ∧ (∀ (fetch2 : String → Option JVal) (cache2 : InfoCache),
        cache2.lookup stationID = some (get_station_info fetch cache stationID).1 →
        get_station_info fetch2 cache2 stationID
          = ((get_station_info fetch cache stationID).1, cache2, false))
    ∧ (∀ (fetch3 : String → Option JVal) (cache3 : InfoCache) (sid2 : String),
        sid2 ≠ stationID →
        (get_station_info fetch3 cache3 sid2).2.1.lookup stationID
          = cache3.lookup stationID) := by
  have hnotempty : (get_station_info fetch cache stationID).1 ≠ [] := by
    intro he
    rw [he] at hsucc
    simp at hsucc
  refine ⟨?_, ?_, ?_⟩
  · rcases get_station_info_cases fetch cache stationID with
      ⟨l, hl, _hlne, he⟩ | hempty | ⟨j, n, _hf, _hn, he⟩
    · rw [he]
      exact hl
    · exact absurd hempty hnotempty
    · rw [he]
      exact lookup_upsert_self cache stationID _
  · intro fetch2 cache2 hl
    exact get_station_info_cached fetch2 cache2 stationID _ hnotempty hl
  · intro fetch3 cache3 sid2 hne
    unfold get_station_info
    cases hc : (cache3.lookup sid2).getD [] with
    | cons e es => rfl
    | nil =>
      cases hf : fetch3 sid2 with
      | none => rfl
      | some j =>
        cases hn : nameOf j with
        | none => simp only [hn]
        | some n =>
          simp only [hn]
          exact lookup_upsert_other cache3 sid2 stationID _ (Ne.symm hne)

theorem C7_station_info_memoization_witness :
    ((get_station_info (fun _ => some (JVal.jobj
        [("properties", JVal.jobj [("name", JVal.jstr "Atlanta ")]),
         ("geometry", JVal.jobj [("type", JVal.jstr "Point")])]))
        [] "KATL").1.isEmpty = false)
    ∧ ((get_station_info (fun _ => some (JVal.jobj
        [("properties", JVal.jobj [("name", JVal.jstr "Atlanta ")]),
         ("geometry", JVal.jobj [("type", JVal.jstr "Point")])]))
        [] "KATL").2.1.lookup "KATL"
        = some (get_station_info (fun _ => some (JVal.jobj
        [("properties", JVal.jobj [("name", JVal.jstr "Atlanta ")]),
         ("geometry", JVal.jobj [("type", JVal.jstr "Point")])]))
        [] "KATL").1)
    ∧ (get_station_info (fun _ => none)
        (get_station_info (fun _ => some (JVal.jobj
        [("properties", JVal.jobj [("name", JVal.jstr "Atlanta ")]),
         ("geometry", JVal.jobj [("type", JVal.jstr "Point")])]))
        [] "KATL").2.1 "KATL"
        = ((get_station_info (fun _ => some (JVal.jobj
        [("properties", JVal.jobj [("name", JVal.jstr "Atlanta ")]),
         ("geometry", JVal.jobj [("type", JVal.jstr "Point")])]))
        [] "KATL").1,
           (get_station_info (fun _ => some (JVal.jobj
        [("properties", JVal.jobj [("name", JVal.jstr "Atlanta ")]),
         ("geometry", JVal.jobj [("type", JVal.jstr "Point")])]))
        [] "KATL").2.1, false))
    ∧ ((get_station_info (fun _ => none) [] "KCLT").2.1.lookup "KATL"
        = ([] : InfoCache).lookup "KATL") :=
  ⟨rfl,
   (C7_station_info_memoization (fun _ => some (JVal.jobj
        [("properties", JVal.jobj [("name", JVal.jstr "Atlanta ")]),
         ("geometry", JVal.jobj [("type", JVal.jstr "Point")])]))
        [] "KATL" rfl).1,
   (C7_station_info_memoization (fun _ => some (JVal.jobj
        [("properties", JVal.jobj [("name", JVal.jstr "Atlanta ")]),
         ("geometry", JVal.jobj [("type", JVal.jstr "Point")])]))
        [] "KATL" rfl).2.1 (fun _ => none) _
     (C7_station_info_memoization (fun _ => some (JVal.jobj
        [("properties", JVal.jobj [("name", JVal.jstr "Atlanta ")]),
         ("geometry", JVal.jobj [("type", JVal.jstr "Point")])]))
        [] "KATL" rfl).1,
   (C7_station_info_memoization (fun _ => some (JVal.jobj
        [("properties", JVal.jobj [("name", JVal.jstr "Atlanta ")]),
         ("geometry", JVal.jobj [("type", JVal.jstr "Point")])]))
        [] "KATL" rfl).2.2 (fun _ => none) [] "KCLT" (by decide)⟩

theorem pyDictKeys_eq_self {ids : List String} (h : ids.Nodup) :
    pyDictKeys ids = ids := by
  induction ids with
  | nil => rfl
  | cons s rest ih =>
    rw [List.nodup_cons] at h
    simp only [pyDictKeys]
    rw [ih h.2]
    congr 1
    apply List.filter_eq_self.mpr
    intro a ha
    exact decide_eq_true (fun he => h.1 (he ▸ ha))

/-- C9 — Registry-shape normalization: a list-form station registry is
first coerced to a dict mapping each station ID to an empty info dict,
and then resolves exactly as the dict-form registry with empty
per-station info would; in both cases every station's info is filled
from `get_station_info`. -/
theorem C9_registry_shape (get_info : String → List (String × JVal))
    (ids : List String) (h : ids.Nodup) :
    resolve_stations get_info (.plist ids)
      = resolve_stations get_info (.pdict (ids.map (fun s => (s, []))))
    ∧ resolve_stations get_info (.plist ids)
      = ids.map (fun s => (s, get_info s)) := by
  have hd : pyDictKeys ids = ids := pyDictKeys_eq_self h
  have h1 : resolve_stations get_info (.plist ids)
      = fill_stations get_info (ids.map (fun s => (s, []))) := by
    show fill_stations get_info ((pyDictKeys ids).map (fun s => (s, [])))
        = fill_stations get_info (ids.map (fun s => (s, [])))
    rw [hd]
  refine ⟨h1.trans rfl, h1.trans ?_⟩
  unfold fill_stations
  rw [List.map_map]
  rfl

theorem C9_registry_shape_witness :
    (["KATL", "KCLT"] : List String).Nodup
    ∧ resolve_stations (fun s => [("name", JVal.jstr s)]) (.plist ["KATL", "KCLT"])
        = resolve_stations (fun s => [("name", JVal.jstr s)])
            (.pdict (["KATL", "KCLT"].map (fun s => (s, []))))
    ∧ resolve_stations (fun s => [("name", JVal.jstr s)]) (.plist ["KATL", "KCLT"])
        = ["KATL", "KCLT"].map (fun s => (s, [("name", JVal.jstr s)])) :=
  ⟨by decide,
   (C9_registry_shape (fun s => [("name", JVal.jstr s)]) ["KATL", "KCLT"] (by decide)).1,
   (C9_registry_shape (fun s => [("name", JVal.jstr s)]) ["KATL", "KCLT"] (by decide)).2⟩

/-! ### Claim C2 — column reconciliation -/

theorem commonFold_some (dfs : List (Option Dict)) (common : List String) :
    ∃ l, dfs.foldl commonColsStep (some common) = some l
      ∧ ∀ c, (c ∈ l ↔ c ∈ common ∧
          ∀ df ∈ (dfs.filterMap id).filter (fun df => decide (frameCols df ≠ [])),
            c ∈ frameCols df) := by
  induction dfs generalizing common with
  | nil => exact ⟨common, rfl, fun c => by simp⟩
  | cons df? rest ih =>
    cases df? with
    | none =>
      obtain ⟨l, hl, hc⟩ := ih common
      refine ⟨l, ?_, fun c => ?_⟩
      · simpa [List.foldl_cons, commonColsStep] using hl
      · rw [hc c]
        simp
    | some df =>
      by_cases hz : (frameCols df).length = 0
      · have hz2 : frameCols df = [] := List.length_eq_zero.mp hz
        obtain ⟨l, hl, hc⟩ := ih common
        refine ⟨l, ?_, fun c => ?_⟩
        · simpa [List.foldl_cons, commonColsStep, hz] using hl
        · rw [hc c]
          simp [hz2]
      · have hz2 : frameCols df ≠ [] := fun he => hz (by rw [he]; rfl)
        obtain ⟨l, hl, hc⟩ := ih (common.filter (fun c => decide (c ∈ frameCols df)))
        refine ⟨l, ?_, fun c => ?_⟩
        · simpa [List.foldl_cons, commonColsStep, hz] using hl
        · rw [hc c]
          simp only [List.filterMap_cons, id, List.filter_cons, hz2,
            decide_eq_true_eq, List.mem_filter]
          simp [hz2]
          tauto

theorem commonFold_none (dfs : List (Option Dict)) :
    (dfs.foldl commonColsStep none = none
      ∧ (dfs.filterMap id).filter (fun df => decide (frameCols df ≠ [])) = [])
    ∨ (∃ l, dfs.foldl commonColsStep none = some l
        ∧ (dfs.filterMap id).filter (fun df => decide (frameCols df ≠ [])) ≠ []
        ∧ ∀ c, (c ∈ l ↔
            ∀ df ∈ (dfs.filterMap id).filter (fun df => decide (frameCols df ≠ [])),
              c ∈ frameCols df)) := by
  induction dfs with
  | nil =>
    left
    exact ⟨rfl, rfl⟩
  | cons df? rest ih =>
    cases df? with
    | none =>
      rcases ih with ⟨h1, h2⟩ | ⟨l, h1, h2, h3⟩
      · left
        refine ⟨?_, ?_⟩
        · simpa [List.foldl_cons, commonColsStep] using h1
        · simpa using h2
      · right
        refine ⟨l, ?_, ?_, fun c => ?_⟩
        · simpa [List.foldl_cons, commonColsStep] using h1
        · simpa using h2
        · rw [h3 c]
          simp
    | some df =>
      by_cases hz : (frameCols df).length = 0
      · have hz2 : frameCols df = [] := List.length_eq_zero.mp hz
        rcases ih with ⟨h1, h2⟩ | ⟨l, h1, h2, h3⟩
        · left
          refine ⟨?_, ?_⟩
          · simpa [List.foldl_cons, commonColsStep, hz] using h1
          · simpa [hz2] using h2
        · right
          refine ⟨l, ?_, ?_, fun c => ?_⟩
          · simpa [List.foldl_cons, commonColsStep, hz] using h1
          · simpa [hz2] using h2
          · rw [h3 c]
            simp [hz2]
      · have hz2 : frameCols df ≠ [] := fun he => hz (by rw [he]; rfl)
        right
        obtain ⟨l, hl, hc⟩ := commonFold_some rest (frameCols df).dedup
        refine ⟨l, ?_, ?_, fun c => ?_⟩
        · simpa [List.foldl_cons, commonColsStep, hz] using hl
        · simp [hz2]
        · rw [hc c]
          simp [hz2, List.mem_dedup]

/-- C2 — Column reconciliation: a column belongs to `common_cols` exactly
when at least one per-station result is kept (non-`None` with at least
one column) and the column appears in every kept result; and
`common_cols` is sorted lexicographically before any frame is selected
and synced. -/
theorem C2_column_reconciliation (dfs : List (Option Dict)) :
    (∀ c, c ∈ commonCols dfs ↔
      ((dfs.filterMap id).filter (fun df => decide (frameCols df ≠ [])) ≠ []
        ∧ ∀ df ∈ (dfs.filterMap id).filter (fun df => decide (frameCols df ≠ [])),
            c ∈ frameCols df))
    ∧ (commonCols dfs).Sorted (· ≤ ·) := by
  constructor
  · intro c
    rcases commonFold_none dfs with ⟨h1, h2⟩ | ⟨l, h1, h2, h3⟩
    · have hc : commonCols dfs = [] := by
        unfold commonCols
        rw [h1]
        rfl
      rw [hc, h2]
      simp
    · have hc : commonCols dfs = sortStrs l := by
        unfold commonCols
        rw [h1]
        rfl
      rw [hc, mem_sortStrs, h3 c]
      constructor
      · intro hall
        exact ⟨h2, hall⟩
      · intro hconj
        exact hconj.2
  · exact sorted_sortStrs _

/-! ### Claim C3 — float casting -/

/-- The definition of `non_float_cols` is the evaluated form of the
source expression `sorted(list({'label', 'timestamp', 'station',
'location', 'geometry'}))`. -/
theorem non_float_cols_eval :
    sortStrs ((["label", "timestamp", "station", "location", "geometry"]
      : List String).dedup) = non_float_cols := by
  have hded : (["label", "timestamp", "station", "location", "geometry"]
      : List String).dedup
      = ["label", "timestamp", "station", "location", "geometry"] :=
    List.Nodup.dedup (by decide)
  rw [hded]
  have f1 : ¬ ("location" : String) ≤ "geometry" := by
    rw [String.le_iff_toList_le]; decide
  have f2 : ¬ ("station" : String) ≤ "geometry" := by
    rw [String.le_iff_toList_le]; decide
  have f3 : ¬ ("station" : String) ≤ "location" := by
    rw [String.le_iff_toList_le]; decide
  have f4 : ¬ ("timestamp" : String) ≤ "geometry" := by
    rw [String.le_iff_toList_le]; decide
  have f5 : ¬ ("timestamp" : String) ≤ "location" := by
    rw [String.le_iff_toList_le]; decide
  have f6 : ¬ ("timestamp" : String) ≤ "station" := by
    rw [String.le_iff_toList_le]; decide
  have f7 : ¬ ("label" : String) ≤ "geometry" := by
    rw [String.le_iff_toList_le]; decide
  have f8 : ("label" : String) ≤ "location" := by
    rw [String.le_iff_toList_le]; decide
  simp [sortStrs, insertStr, f1, f2, f3, f4, f5, f6, f7, f8, non_float_cols]

theorem mem_float_cols (c : String) (common : List String) :
    c ∈ float_cols common ↔ c ∈ common ∧ c ∉ non_float_cols := by
  unfold float_cols
  rw [mem_sortStrs]
  simp [List.mem_filter, List.mem_dedup]

theorem mem_non_float_cols (c : String) :
    c ∈ non_float_cols
      ↔ c ∈ ["label", "timestamp", "station", "location", "geometry"] := by
  simp [non_float_cols]
  tauto

theorem castFrame_ok_spec (df : Dict) (common : List String)
    (out : List CastCol) (h : castFrame df common = .ok out) :
    out = common.map (fun c =>
      ⟨c, decide (c ∈ float_cols common), (df.lookup c).getD []⟩) := by
  cases hsel : selectCols df common with
  | error e =>
    unfold castFrame at h
    rw [hsel] at h
    exact Except.noConfusion h
  | ok sel =>
    have hsel2 : sel = common.map (fun c => (c, (df.lookup c).getD [])) := by
      unfold selectCols at hsel
      by_cases hall : common.all (fun c => (df.lookup c).isSome)
      · rw [if_pos hall] at hsel
        injection hsel with h'
        exact h'.symm
      · rw [if_neg hall] at hsel
        exact Except.noConfusion hsel
    unfold castFrame at h
    rw [hsel] at h
    injection h with h'
    rw [← h', hsel2, List.map_map]
    rfl

/-- C3 — Type coercion: when the select-and-cast step succeeds, the
columns handed to `pipe.sync` are exactly the common columns, and a
column is cast to floating point precisely when its name is not one of
`label`, `timestamp`, `station`, `location`, `geometry`. -/
theorem C3_float_casting (df : Dict) (common : List String)
    (out : List CastCol) (h : castFrame df common = .ok out) :
    out.map (fun e => e.col) = common
    ∧ ∀ e ∈ out, (e.toFloat = true
        ↔ e.col ∉ ["label", "timestamp", "station", "location", "geometry"]) := by
  have hspec := castFrame_ok_spec df common out h
  constructor
  · rw [hspec, List.map_map]
    exact List.map_id common
  · intro e he
    rw [hspec] at he
    obtain ⟨c, hc, rfl⟩ := List.mem_map.mp he
    simp only [decide_eq_true_eq]
    rw [mem_float_cols]
    constructor
    · rintro ⟨_, hnin⟩ hmem
      exact hnin ((mem_non_float_cols c).mpr hmem)
    · intro hnin
      exact ⟨hc, fun hmem => hnin ((mem_non_float_cols c).mp hmem)⟩

theorem C3_float_casting_witness :
    castFrame [("temperature", [JVal.jnum 20]), ("timestamp", [JVal.jstr "t"])]
        ["temperature"]
      = .ok [⟨"temperature", true, [JVal.jnum 20]⟩]
    ∧ ([(⟨"temperature", true, [JVal.jnum 20]⟩ : CastCol)].map (fun e => e.col)
        = ["temperature"]
      ∧ ∀ e ∈ [(⟨"temperature", true, [JVal.jnum 20]⟩ : CastCol)],
          (e.toFloat = true
            ↔ e.col ∉ ["label", "timestamp", "station", "location", "geometry"])) :=
  ⟨rfl, C3_float_casting
    [("temperature", [JVal.jnum 20]), ("timestamp", [JVal.jstr "t"])]
    ["temperature"] [⟨"temperature", true, [JVal.jnum 20]⟩] rfl⟩

/-! ### Claim C5 — partial failure tolerance and the aggregate summary -/

theorem castLoop_eq (results : List (String × Option Dict)) (common : List String) :
    castLoop results common = results.filterMap (fun r =>
      r.2.map (fun df => (r.1, (castFrame df common).toOption))) := by
  suffices h : ∀ acc, results.foldl (fun acc r =>
      match r.2 with
      | none => acc
      | some df => acc ++ [(r.1, (castFrame df common).toOption)]) acc
      = acc ++ results.filterMap (fun r =>
          r.2.map (fun df => (r.1, (castFrame df common).toOption))) by
    simpa [castLoop] using h []
  intro acc
  induction results generalizing acc with
  | nil => simp
  | cons r rest ih =>
    cases hr : r.2 with
    | none =>
      simp [List.foldl_cons, hr, ih, List.filterMap_cons]
    | some df =>
      simp [List.foldl_cons, hr, ih, List.filterMap_cons]

theorem countSyncs_eq (sd : List (String × Bool)) :
    countSyncs sd = (sd.countP (fun r => r.2), sd.countP (fun r => !r.2)) := by
  suffices h : ∀ p : Nat × Nat, sd.foldl
      (fun p r => if r.2 then (p.1 + 1, p.2) else (p.1, p.2 + 1)) p
      = (p.1 + sd.countP (fun r => r.2), p.2 + sd.countP (fun r => !r.2)) by
    simpa [countSyncs] using h (0, 0)
  intro p
  induction sd generalizing p with
  | nil => simp
  | cons r rest ih =>
    cases hb : r.2 with
    | true =>
      rw [List.foldl_cons, hb, if_pos rfl, ih]
      simp [List.countP_cons, hb]
      omega
    | false =>
      rw [List.foldl_cons, hb, if_neg (by simp), ih]
      simp [List.countP_cons, hb]
      omega

theorem successDict_castLoop (results : List (String × Option Dict))
    (common : List String) (hostOk : String → List CastCol → Bool) :
    successDict (castLoop results common) hostOk
      = (results.filter (fun r => r.2.isSome)).map
          (fun r => (r.1, stationSynced common hostOk r)) := by
  rw [castLoop_eq]
  induction results with
  | nil => rfl
  | cons r rest ih =>
    cases hr : r.2 with
    | none =>
      simp only [List.filterMap_cons, hr, Option.map_none', List.filter_cons,
        Option.isSome_none, Bool.false_eq_true, if_false]
      exact ih
    | some df =>
      simp only [List.filterMap_cons, hr, Option.map_some', List.filter_cons,
        Option.isSome_some, if_true]
      simp only [successDict, List.map_cons] at ih ⊢
      rw [ih]
      simp [stationSynced, hr]

/-- C5 (amended) — Partial failure tolerance and the aggregate summary:
a station's fetch exception is caught by `do_fetch` and recorded as
`None`, and the batch proceeds; but stations whose fetch result is
`None` are dropped from the rebuilt frame dict, so they are excluded
from the aggregate counts.  The returned boolean is `succeeded > 0`
where `succeeded` counts stations whose fetch produced a frame, whose
select-and-cast step succeeded and whose `pipe.sync` reported success;
the message is "Synced from N stations, M failed." where N counts only
stations whose fetch produced a frame and M those among them that failed
at the cast step or at `pipe.sync`. -/
theorem C5_partial_failure_aggregate (results : List (String × Option Dict))
    (hostOk : String → List CastCol → Bool) :
    (∀ sid, do_fetch sid (.error ()) = (sid, none))
    ∧ (sync_result results hostOk).1
        = decide (0 < results.countP
            (stationSynced (commonCols (results.map (fun r => r.2))) hostOk))
    ∧ (sync_result results hostOk).2
        = "Synced from " ++ toString (results.countP (fun r => r.2.isSome))
          ++ " stations, "
          ++ toString (results.countP (fun r => r.2.isSome
              && !stationSynced (commonCols (results.map (fun r => r.2))) hostOk r))
          ++ " failed." := by
  set common := commonCols (results.map (fun r => r.2)) with hcommon
  have hsd := successDict_castLoop results common hostOk
  have hcount := countSyncs_eq (successDict (castLoop results common) hostOk)
  rw [hsd] at hcount
  have hsucc : ((results.filter (fun r => r.2.isSome)).map
      (fun r => (r.1, stationSynced common hostOk r))).countP (fun r => r.2)
      = results.countP (stationSynced common hostOk) := by
    rw [List.countP_map, List.countP_filter]
    apply List.countP_congr
    intro r _
    cases hr : r.2 with
    | none => simp [Function.comp, stationSynced, hr]
    | some df => simp [Function.comp, stationSynced, hr]
  have hfail : ((results.filter (fun r => r.2.isSome)).map
      (fun r => (r.1, stationSynced common hostOk r))).countP (fun r => !r.2)
      = results.countP (fun r => r.2.isSome && !stationSynced common hostOk r) := by
    rw [List.countP_map, List.countP_filter]
    apply List.countP_congr
    intro r _
    cases hr : r.2 with
    | none => simp [Function.comp, stationSynced, hr]
    | some df => simp [Function.comp, stationSynced, hr]
  have htotal : ((results.filter (fun r => r.2.isSome)).map
      (fun r => (r.1, stationSynced common hostOk r))).countP (fun r => r.2)
      + ((results.filter (fun r => r.2.isSome)).map
      (fun r => (r.1, stationSynced common hostOk r))).countP (fun r => !r.2)
      = results.countP (fun r => r.2.isSome) := by
    have hlen := List.length_eq_countP_add_countP (fun r : String × Bool => r.2)
      ((results.filter (fun r => r.2.isSome)).map
        (fun r => (r.1, stationSynced common hostOk r)))
    have hnot : ((results.filter (fun r => r.2.isSome)).map
        (fun r => (r.1, stationSynced common hostOk r))).countP
          (fun a => decide ¬a.2 = true)
        = ((results.filter (fun r => r.2.isSome)).map
        (fun r => (r.1, stationSynced common hostOk r))).countP (fun r => !r.2) := by
      apply List.countP_congr
      intro r _
      cases hb : r.2 <;> simp [hb]
    rw [hnot] at hlen
    rw [← hlen, List.length_map, ← List.countP_eq_length_filter]
  have hpair : countSyncs (successDict (castLoop results common) hostOk)
      = (results.countP (stationSynced common hostOk),
         results.countP (fun r => r.2.isSome && !stationSynced common hostOk r)) := by
    rw [hsd, hcount, hsucc, hfail]
  have hsum : results.countP (stationSynced common hostOk)
      + results.countP (fun r => r.2.isSome && !stationSynced common hostOk r)
      = results.countP (fun r => r.2.isSome) := by
    rw [← hsucc, ← hfail]
    exact htotal
  refine ⟨fun sid => rfl, ?_, ?_⟩
  · simp only [sync_result]
    rw [← hcommon, hpair]
  · simp only [sync_result]
    rw [← hcommon, hpair]
    dsimp only
    rw [hsum]

/-- C5 counterexample — a batch where station "A"'s fetch failed
(result `None`) and station "B" synced fine: the code reports "Synced
from 1 stations, 0 failed.", not the "Synced from 2 stations, 1 failed."
that the claim's reading (N = stations attempted, M = failures including
fetch failures) requires. -/
theorem C5_fetch_failure_uncounted_counterexample :
    (sync_result [("A", none), ("B", some [("timestamp", [JVal.jstr "t"])])]
        (fun _ _ => true)).2 = "Synced from 1 stations, 0 failed."
    ∧ (sync_result [("A", none), ("B", some [("timestamp", [JVal.jstr "t"])])]
        (fun _ _ => true)).2 ≠ "Synced from 2 stations, 1 failed." :=
  ⟨rfl, by decide⟩

/-! ### Claim C10 — all-empty batches -/

theorem commonFold_none_of_all_empty (dfs : List (Option Dict))
    (h : ∀ df ∈ dfs, (df.getD []).isEmpty = true) :
    dfs.foldl commonColsStep none = none := by
  induction dfs with
  | nil => rfl
  | cons df? rest ih =>
    cases df? with
    | none =>
      exact ih (fun df hm => h df (List.mem_cons_of_mem _ hm))
    | some df =>
      have hdf : df.isEmpty = true := by
        simpa using h (some df) (List.mem_cons_self _ _)
      have hlen : (frameCols df).length = 0 := by
        rw [List.isEmpty_iff] at hdf
        rw [hdf]
        rfl
      rw [List.foldl_cons]
      have hstep : commonColsStep none (some df) = none := by
        simp [commonColsStep, hlen]
      rw [hstep]
      exact ih (fun df hm => h df (List.mem_cons_of_mem _ hm))

/-- C10 (amended) — All-empty batch: when every station's result is
`None` or a zero-column frame, the column reconciliation falls back to
the empty common-column list (no exception is possible: the fold and sort
are total); and when every result is `None`, no station reaches
`pipe.sync` and the returned tuple is
`(False, "Synced from 0 stations, 0 failed.")` regardless of the host.
(A zero-column but non-`None` frame, by contrast, is still passed to
`pipe.sync` restricted to zero columns and is counted — see the
counterexample.) -/
theorem C10_all_empty_batch (results : List (String × Option Dict))
    (hostOk : String → List CastCol → Bool)
    (hz : ∀ r ∈ results, (r.2.getD []).isEmpty = true) :
    commonCols (results.map (fun r => r.2)) = []
    ∧ ((∀ r ∈ results, r.2.isNone = true) →
        sync_result results hostOk = (false, "Synced from 0 stations, 0 failed.")) := by
  constructor
  · have hfold := commonFold_none_of_all_empty (results.map (fun r => r.2)) (by
      intro df hm
      obtain ⟨r, hr, rfl⟩ := List.mem_map.mp hm
      exact hz r hr)
    unfold commonCols
    rw [hfold]
    rfl
  · intro hnone
    have hcast : ∀ common, castLoop results common = [] := by
      intro common
      rw [castLoop_eq]
      apply List.filterMap_eq_nil.mpr
      intro r hr
      rw [Option.isNone_iff_eq_none.mp (hnone r hr)]
      rfl
    simp only [sync_result]
    rw [hcast]
    simp only [successDict, List.map_nil, countSyncs, List.foldl_nil]
    rfl

theorem C10_all_empty_batch_witness :
    (∀ r ∈ [(("A", none) : String × Option Dict)], (r.2.getD []).isEmpty = true)
    ∧ (commonCols ([(("A", none) : String × Option Dict)].map (fun r => r.2)) = []
      ∧ ((∀ r ∈ [(("A", none) : String × Option Dict)], r.2.isNone = true) →
          sync_result [("A", none)] (fun _ _ => true)
            = (false, "Synced from 0 stations, 0 failed."))) :=
  ⟨by decide, C10_all_empty_batch [("A", none)] (fun _ _ => true) (by decide)⟩

/-- C10 counterexample — a batch whose only result is a zero-column
frame: the claim says no station is synced and the boolean is `False`,
but the zero-column frame survives the rebuild loop, is passed to
`pipe.sync` (restricted to zero columns) and counted, so with a host that
accepts it the boolean is `True` and the message reports one synced
station. -/
theorem C10_zero_column_frame_counterexample :
    (sync_result [("A", some ([] : Dict))] (fun _ _ => true)).1 = true
    ∧ (sync_result [("A", some ([] : Dict))] (fun _ _ => true)).2
        = "Synced from 1 stations, 0 failed." :=
  ⟨rfl, rfl⟩

end NOAA
